import Mathlib

/-!
Shallow embedding of `xrandream.py` (single-file Qt utility that carves a
physical monitor into virtual sub-displays via the external `xrandr` tool).

Modelling conventions:
* Machine integers are `Nat`/`Int` (Python ints are unbounded, so no wraparound).
* Qt side effects (window show/hide, repaint, `setChecked`) are outside the
  model; the externally observable effects we track are the toggle store
  `enabled_displays`, the overlay dictionary `rectangles`, a count of live
  `OutlineWidget` instances per region (`alive` — `destroy()` decrements it,
  construction increments it), and the list of `xrandr` subprocess invocations
  each handler emits (`GatewayCall`).
* `math.ceil(w / parts * rows)` is modelled as the exact rational ceiling
  `(w * rows + (parts - 1)) / parts`; for the part counts and screen sizes in
  play the IEEE double computation agrees with the exact rational value.
* Python strings are modelled as `List Char`.
-/

namespace Xrandream

/-- The fixed region set: the keys of `VirtualDisplayManager.enabled_displays`. -/
inductive Region
  | select_region
  | full_screen
  | right_half
  | left_half
  | left_third
  | center_third
  | right_third
  | top_left_quarter
  | top_right_quarter
  | bottom_left_quarter
  | bottom_right_quarter
  | top_left_sixth
  | top_center_sixth
  | top_right_sixth
  | bottom_left_sixth
  | bottom_center_sixth
  | bottom_right_sixth
  deriving DecidableEq, Repr, Fintype

/-- A `QPoint`: integer screen coordinates. -/
structure Point where
  x : Int
  y : Int
  deriving DecidableEq, Repr

/-- An `OutlineWidget(start, end)` instance: it stores its two corner points
(`self.start`, `self.end` in the source). -/
structure OutlineWidget where
  start : Point
  stop : Point
  deriving DecidableEq, Repr

/-- `OutlineWidget.coordinates`: the top-left corner `(start.x(), start.y())`. -/
def OutlineWidget.coordinates (o : OutlineWidget) : Int × Int :=
  (o.start.x, o.start.y)

/-- `OutlineWidget.size`: `(end.x() - start.x(), end.y() - start.y())`. -/
def OutlineWidget.size (o : OutlineWidget) : Int × Int :=
  (o.stop.x - o.start.x, o.stop.y - o.start.y)

/-- One `xrandr` subprocess invocation made by the manager (the gateway trace).
`setMonitor name w h x y` is `Xrandr.set_monitor(name, w, h, x, y)`;
`delMonitor name` is `Xrandr.del_monitor(name)`. -/
inductive GatewayCall
  | setMonitor (name : Region) (width height offset_x offset_y : Int)
  | delMonitor (name : Region)
  deriving DecidableEq, Repr

/-- A Python return value that is either `None` or a `bool` (the two shapes
the `Xrandr` static methods can produce). -/
inductive PyRet
  | noneVal
  | boolVal (b : Bool)
  deriving DecidableEq, Repr

/-- `Xrandr.set_monitor`: runs `check_call` and returns `False` on
`CalledProcessError` (nonzero exit).  The `try` body has no `return`
statement, so on success the function falls through and yields `None`.
`exitOk` records whether the external tool exited with status zero. -/
def Xrandr.set_monitor (exitOk : Bool) : PyRet :=
  if exitOk then PyRet.noneVal else PyRet.boolVal false

/-- `Xrandr.del_monitor`: returns `True` on success, `False` on
`CalledProcessError` (nonzero exit). -/
def Xrandr.del_monitor (exitOk : Bool) : PyRet :=
  if exitOk then PyRet.boolVal true else PyRet.boolVal false

/-- The mutable state of a `VirtualDisplayManager` (plus the live-widget count
used to express the at-most-one-overlay property, and `pending`, which records
that a `SnippingWidget` capture started by `select_region` is still active). -/
structure MgrState where
  enabled_displays : Region → Bool
  rectangles : Region → Option OutlineWidget
  alive : Region → Nat
  pending : Bool

/-- Pointwise update of the toggle store. -/
def updB (f : Region → Bool) (a : Region) (b : Bool) : Region → Bool :=
  fun r => if r = a then b else f r

/-- Pointwise update of the overlay dictionary. -/
def updO (f : Region → Option OutlineWidget) (a : Region) (v : Option OutlineWidget) :
    Region → Option OutlineWidget :=
  fun r => if r = a then v else f r

/-- Pointwise update of the live-widget count. -/
def updN (f : Region → Nat) (a : Region) (v : Nat) : Region → Nat :=
  fun r => if r = a then v else f r

/-- The state right after `VirtualDisplayManager.__init__` builds
`enabled_displays` (every flag `False`) and `rectangles = {}` and before
`init_active_monitors` runs, with no `OutlineWidget` alive. -/
def initState : MgrState where
  enabled_displays := fun _ => false
  rectangles := fun _ => none
  alive := fun _ => 0
  pending := false

/-- `check_invalid_state(area, enabled)`:
`enabled == self.enabled_displays[area]`. -/
def check_invalid_state (s : MgrState) (area : Region) (enabled : Bool) : Bool :=
  enabled == s.enabled_displays area

/-- `set_state(area, enabled)`: returns `False` (state untouched) when
`check_invalid_state` holds; otherwise stores the new flag, and on a
transition to disabled destroys and deletes the region's overlay if present.
(The `setChecked` call on the bound button is a UI effect outside the model;
`set_state` performs no `xrandr` invocation.)  The returned `Bool` is the
`changed` result. -/
def set_state (s : MgrState) (area : Region) (enabled : Bool) : Bool × MgrState :=
  if check_invalid_state s area enabled then (false, s)
  else
    let s1 : MgrState := { s with enabled_displays := updB s.enabled_displays area enabled }
    if !enabled && (s1.rectangles area).isSome then
      (true, { s1 with rectangles := updO s1.rectangles area none,
                       alive := updN s1.alive area (s1.alive area - 1) })
    else (true, s1)

/-- Exact ceiling division on naturals: for `0 < b` this is the ceiling of the
rational `a / b`, the value Python's `math.ceil` computes in `divide_screen`. -/
def ceilDivNat (a b : Nat) : Nat :=
  (a + (b - 1)) / b

/-- `divide_screen(parts)` with the screen size made an explicit argument:
`rows = 2 if parts > 3 else 1`, `pw = math.ceil(w / parts * rows)`,
`ph = math.ceil(h / rows)`, and cell `(r, c)` is `(pw, ph, pw * c, ph * r)`
for `r < rows`, `c < parts // rows`. -/
def divide_screen (w h parts : Nat) : List (List (Nat × Nat × Nat × Nat)) :=
  let rows : Nat := if 3 < parts then 2 else 1
  let pw := ceilDivNat (w * rows) parts
  let ph := ceilDivNat h rows
  (List.range rows).map fun r =>
    (List.range (parts / rows)).map fun c => (pw, ph, pw * c, ph * r)

/-- `self.rectangles[area] = OutlineWidget(p1, p2)`: a plain dictionary
assignment constructing a fresh widget, with no destroy of any widget the
slot may already hold. -/
def mkOutline (s : MgrState) (area : Region) (p1 p2 : Point) : MgrState :=
  { s with rectangles := updO s.rectangles area (some { start := p1, stop := p2 }),
           alive := updN s.alive area (s.alive area + 1) }

/-- `draw_outline(area, w, h, x, y)`: destroys the existing overlay for
`area` if one is held, then assigns
`OutlineWidget(QPoint(x, y), QPoint(x + w, y + h))`. -/
def draw_outline (s : MgrState) (area : Region) (w h x y : Int) : MgrState :=
  let s0 := if (s.rectangles area).isSome then
      { s with alive := updN s.alive area (s.alive area - 1) }
    else s
  mkOutline s0 area { x := x, y := y } { x := x + w, y := y + h }

/-- The common body of the fourteen grid-region handlers
(`select_left_half`, ..., `select_bottom_right_sixth`):
`set_state`; if changed and enabling, look up
`divide_screen(parts)[row][col]`, call `Xrandr.set_monitor` with it and
`draw_outline`; if changed and disabling, call `Xrandr.del_monitor`.
The second component is the list of gateway invocations made. -/
def select_grid (scr : Nat × Nat) (area : Region) (parts row col : Nat)
    (s : MgrState) (enabled : Bool) : MgrState × List GatewayCall :=
  let res := set_state s area enabled
  if res.1 then
    if enabled then
      let d := ((divide_screen scr.1 scr.2 parts).getD row []).getD col (0, 0, 0, 0)
      (draw_outline res.2 area (d.1 : Int) (d.2.1 : Int) (d.2.2.1 : Int) (d.2.2.2 : Int),
       [GatewayCall.setMonitor area (d.1 : Int) (d.2.1 : Int) (d.2.2.1 : Int) (d.2.2.2 : Int)])
    else (res.2, [GatewayCall.delMonitor area])
  else (res.2, [])

/-- `select_left_half(enabled)`: grid handler at `divide_screen(2)[0][0]`. -/
def select_left_half (scr : Nat × Nat) (s : MgrState) (enabled : Bool) :
    MgrState × List GatewayCall :=
  select_grid scr Region.left_half 2 0 0 s enabled

/-- `select_full_screen(enabled)`: on an effective enable, calls
`Xrandr.set_monitor('full_screen', w, h, 0, 0)` and assigns
`OutlineWidget(QPoint(0, 0), QPoint(w, h))`; on an effective disable calls
`Xrandr.del_monitor`. -/
def select_full_screen (scr : Nat × Nat) (s : MgrState) (enabled : Bool) :
    MgrState × List GatewayCall :=
  let res := set_state s Region.full_screen enabled
  if res.1 then
    if enabled then
      (mkOutline res.2 Region.full_screen { x := 0, y := 0 } { x := (scr.1 : Int), y := (scr.2 : Int) },
       [GatewayCall.setMonitor Region.full_screen (scr.1 : Int) (scr.2 : Int) 0 0])
    else (res.2, [GatewayCall.delMonitor Region.full_screen])
  else (res.2, [])

/-- `select_region(enabled)`: on an effective enable, starts the region
selector (capture becomes pending; no gateway call and no overlay yet); on an
effective disable, calls `Xrandr.del_monitor('select_region')`. -/
def select_region (s : MgrState) (enabled : Bool) : MgrState × List GatewayCall :=
  let res := set_state s Region.select_region enabled
  if res.1 then
    if enabled then ({ res.2 with pending := true }, [])
    else (res.2, [GatewayCall.delMonitor Region.select_region])
  else (res.2, [])

/-- `complete_region_selection(start, end)`: assigns
`OutlineWidget(start, end)` into `rectangles['select_region']` (no destroy of
a previous entry) and calls
`Xrandr.set_monitor('select_region', end.x - start.x, end.y - start.y, start.x, start.y)`.
The capture surface has closed, so the selection is no longer pending. -/
def complete_region_selection (s : MgrState) (p1 p2 : Point) :
    MgrState × List GatewayCall :=
  ({ mkOutline s Region.select_region p1 p2 with pending := false },
   [GatewayCall.setMonitor Region.select_region (p2.x - p1.x) (p2.y - p1.y) p1.x p1.y])

/-- `cancel_region_selection()`: `set_state('select_region', False)`; the
capture surface has closed, so the selection is no longer pending.  No
gateway call is made. -/
def cancel_region_selection (s : MgrState) : MgrState × List GatewayCall :=
  ({ (set_state s Region.select_region false).2 with pending := false }, [])

/-- The `(parts, row, col)` table implicit in the fourteen grid handlers:
which `divide_screen` cell each region's handler uses. -/
def gridSpec : Region → Option (Nat × Nat × Nat)
  | Region.left_half => some (2, 0, 0)
  | Region.right_half => some (2, 0, 1)
  | Region.left_third => some (3, 0, 0)
  | Region.center_third => some (3, 0, 1)
  | Region.right_third => some (3, 0, 2)
  | Region.top_left_quarter => some (4, 0, 0)
  | Region.top_right_quarter => some (4, 0, 1)
  | Region.bottom_left_quarter => some (4, 1, 0)
  | Region.bottom_right_quarter => some (4, 1, 1)
  | Region.top_left_sixth => some (6, 0, 0)
  | Region.top_center_sixth => some (6, 0, 1)
  | Region.top_right_sixth => some (6, 0, 2)
  | Region.bottom_left_sixth => some (6, 1, 0)
  | Region.bottom_center_sixth => some (6, 1, 1)
  | Region.bottom_right_sixth => some (6, 1, 2)
  | Region.select_region => none
  | Region.full_screen => none

/-- One completed toggle or selection-callback event of the manager.  Toggle
events can only happen while no drag-selection capture is pending (the capture
surface is a full-screen grab and the main window is minimized); the two
selector callbacks can only fire while a capture is pending. -/
inductive Step (scr : Nat × Nat) : MgrState → MgrState → Prop
  | grid {s : MgrState} (r : Region) (parts row col : Nat) (en : Bool)
      (hr : gridSpec r = some (parts, row, col)) (hp : s.pending = false) :
      Step scr s (select_grid scr r parts row col s en).1
  | full {s : MgrState} (en : Bool) (hp : s.pending = false) :
      Step scr s (select_full_screen scr s en).1
  | selTog {s : MgrState} (en : Bool) (hp : s.pending = false) :
      Step scr s (select_region s en).1
  | complete {s : MgrState} (p1 p2 : Point) (hp : s.pending = true) :
      Step scr s (complete_region_selection s p1 p2).1
  | cancel {s : MgrState} (hp : s.pending = true) :
      Step scr s (cancel_region_selection s).1

/-- States reachable from the freshly constructed manager by completed
toggle/selection events. -/
inductive Reachable (scr : Nat × Nat) : MgrState → Prop
  | init : Reachable scr initState
  | step {s t : MgrState} : Reachable scr s → Step scr s t → Reachable scr t

/-- The store/overlay consistency invariant: every region has at most one
live overlay (and the overlay dictionary tracks exactly the live widgets);
while a drag-selection is pending, `select_region` is flagged on with its
overlay not yet created; for every region outside that pending window the
stored flag is true iff a live overlay for the region exists. -/
def Inv (s : MgrState) : Prop :=
  (∀ r : Region, s.alive r = if (s.rectangles r).isSome then 1 else 0) ∧
  (s.pending = true →
    s.enabled_displays Region.select_region = true ∧
    s.rectangles Region.select_region = none) ∧
  (∀ r : Region, (s.pending = true → r ≠ Region.select_region) →
    (s.enabled_displays r = true ↔ (s.rectangles r).isSome = true))

/-- A `SnippingWidget` (region selector): the Python-visible fields.
`onCompleted`/`onCancelled` record whether the corresponding callback slot
(`onSnippingCompleted`/`onSnippingCancelled`) currently holds a callable;
`closed` records that `self.close()` has run (the capture surface is torn
down and receives no further input events). -/
structure Snip where
  is_snipping : Bool
  begin_ : Point
  end_ : Point
  onCompleted : Bool
  onCancelled : Bool
  closed : Bool
  deriving DecidableEq, Repr

/-- A key delivered to `keyPressEvent`: Escape or anything else. -/
inductive Key
  | escape
  | other
  deriving DecidableEq, Repr

/-- A callback invocation observed by the caller of `start`. -/
inductive CB
  | completed (topLeft bottomRight : Point)
  | cancelled
  deriving DecidableEq, Repr

/-- An input event delivered to the capture surface. -/
inductive SnipEv
  | press (p : Point)
  | move (p : Point)
  | release
  | key (k : Key)
  deriving DecidableEq, Repr

/-- `SnippingWidget.__init__`: `begin = end = QPoint()` (the origin), both
callback slots `None`, the class flag `is_snipping` initially `False`. -/
def snipInit : Snip where
  is_snipping := false
  begin_ := { x := 0, y := 0 }
  end_ := { x := 0, y := 0 }
  onCompleted := false
  onCancelled := false
  closed := false

/-- `start(region_selected_callback, selection_cancelled_callback)` with both
callbacks supplied (as the manager always does): sets `is_snipping`, stores
the callbacks and shows the capture surface.  `begin`/`end` are not reset. -/
def snipStart (s : Snip) : Snip :=
  { s with is_snipping := true, onCompleted := true, onCancelled := true, closed := false }

/-- `mousePressEvent`: `begin = event.pos(); end = begin`. -/
def mousePress (s : Snip) (p : Point) : Snip :=
  { s with begin_ := p, end_ := p }

/-- `mouseMoveEvent`: `end = event.pos()`. -/
def mouseMove (s : Snip) (p : Point) : Snip :=
  { s with end_ := p }

/-- `mouseReleaseEvent`: normalizes the two corners with `min`/`max`, invokes
the completion callback if its slot is non-`None`, clears that slot and
closes.  The cancellation slot is left as-is (the source does not clear it
here). -/
def mouseRelease (s : Snip) : Snip × List CB :=
  let x1 := min s.begin_.x s.end_.x
  let y1 := min s.begin_.y s.end_.y
  let x2 := max s.begin_.x s.end_.x
  let y2 := max s.begin_.y s.end_.y
  ({ s with is_snipping := false, onCompleted := false, closed := true },
   if s.onCompleted then [CB.completed { x := x1, y := y1 } { x := x2, y := y2 }] else [])

/-- `keyPressEvent`: on Escape, clears the completion slot, invokes the
cancellation callback if its slot is non-`None`, clears it and closes.  (The
class flag `is_snipping` is not touched on this path.)  Any other key is
ignored. -/
def keyPress (s : Snip) (k : Key) : Snip × List CB :=
  if k = Key.escape then
    ({ s with onCompleted := false, onCancelled := false, closed := true },
     if s.onCancelled then [CB.cancelled] else [])
  else (s, [])

/-- Dispatch one input event to the capture surface. -/
def snipStep (s : Snip) : SnipEv → Snip × List CB
  | SnipEv.press p => (mousePress s p, [])
  | SnipEv.move p => (mouseMove s p, [])
  | SnipEv.release => mouseRelease s
  | SnipEv.key k => keyPress s k

/-- Deliver a sequence of input events, collecting every callback invocation
in order. -/
def snipRun : Snip → List SnipEv → Snip × List CB
  | s, [] => (s, [])
  | s, e :: es =>
    let r1 := snipStep s e
    let r2 := snipRun r1.1 es
    (r2.1, r1.2 ++ r2.2)

/-- A non-terminating capture event: a press, a move, or a key other than
Escape.  Release and Escape are the only events that end a capture. -/
inductive NTEv
  | press (p : Point)
  | move (p : Point)
  | keyOther
  deriving DecidableEq, Repr

/-- View a non-terminating event as an input event. -/
def ntToEv : NTEv → SnipEv
  | NTEv.press p => SnipEv.press p
  | NTEv.move p => SnipEv.move p
  | NTEv.keyOther => SnipEv.key Key.other

/-- Leading decimal digits of a character list, and the remainder. -/
def takeDigits : List Char → List Char × List Char
  | [] => ([], [])
  | c :: cs =>
    if c.isDigit then
      let r := takeDigits cs
      (c :: r.1, r.2)
    else ([], c :: cs)

/-- Numeric value of a digit string. -/
def digitsToNat (ds : List Char) : Nat :=
  ds.foldl (fun acc c => acc * 10 + (c.toNat - 48)) 0

/-- Consume one or more digits (the regex atom `\d+`), returning their value
and the remaining input. -/
def munchDigits (l : List Char) : Option (Nat × List Char) :=
  match takeDigits l with
  | ([], _) => none
  | (ds, rest) => some (digitsToNat ds, rest)

/-- Consume one expected literal character. -/
def expectChar (c : Char) : List Char → Option (List Char)
  | [] => none
  | d :: rest => if d = c then some rest else none

/-- Match the geometry regex `(\d+)/\d+x(\d+)/\d+\+(\d+)\+(\d+)` at the head
of the input: extract width, height, x-offset and y-offset, ignoring the two
physical-size subfields after the slashes. -/
def matchGeom (l : List Char) : Option (Nat × Nat × Nat × Nat) := do
  let (w, l) ← munchDigits l
  let l ← expectChar '/' l
  let (_, l) ← munchDigits l
  let l ← expectChar 'x' l
  let (h, l) ← munchDigits l
  let l ← expectChar '/' l
  let (_, l) ← munchDigits l
  let l ← expectChar '+' l
  let (x, l) ← munchDigits l
  let l ← expectChar '+' l
  let (y, _) ← munchDigits l
  pure (w, h, x, y)

/-- `re.findall(...)[0]` on the geometry token: the first position where the
geometry regex matches. -/
def findGeom : List Char → Option (Nat × Nat × Nat × Nat)
  | [] => none
  | c :: rest =>
    match matchGeom (c :: rest) with
    | some r => some r
    | none => findGeom rest

/-- Does the monitor name start with the literal `PYR-`? -/
def startsWithPYR : List Char → Bool
  | 'P' :: 'Y' :: 'R' :: '-' :: _ => true
  | _ => false

/-- `name[4:]` resolved against the keys of `enabled_displays`. -/
def regionFromName (l : List Char) : Option Region :=
  if l = String.toList "select_region" then some Region.select_region
  else if l = String.toList "full_screen" then some Region.full_screen
  else if l = String.toList "right_half" then some Region.right_half
  else if l = String.toList "left_half" then some Region.left_half
  else if l = String.toList "left_third" then some Region.left_third
  else if l = String.toList "center_third" then some Region.center_third
  else if l = String.toList "right_third" then some Region.right_third
  else if l = String.toList "top_left_quarter" then some Region.top_left_quarter
  else if l = String.toList "top_right_quarter" then some Region.top_right_quarter
  else if l = String.toList "bottom_left_quarter" then some Region.bottom_left_quarter
  else if l = String.toList "bottom_right_quarter" then some Region.bottom_right_quarter
  else if l = String.toList "top_left_sixth" then some Region.top_left_sixth
  else if l = String.toList "top_center_sixth" then some Region.top_center_sixth
  else if l = String.toList "top_right_sixth" then some Region.top_right_sixth
  else if l = String.toList "bottom_left_sixth" then some Region.bottom_left_sixth
  else if l = String.toList "bottom_center_sixth" then some Region.bottom_center_sixth
  else if l = String.toList "bottom_right_sixth" then some Region.bottom_right_sixth
  else none

/-- `init_active_monitors`: for each `(name, dimensions)` entry reported by
`xrandr --listmonitors` (the unused index and source fields are dropped), if
the name has the `PYR-` prefix and its suffix is a known region, parse
`W/px x H/py + X + Y` out of the geometry token and run `draw_outline` then
`set_state(region, True)`.  A prefixed, recognized name whose geometry fails
to parse makes the whole call fail (`re.findall(...)[0]` raises
`IndexError`), hence the `Option` result. -/
def init_active_monitors (monitors : List (List Char × List Char)) (s : MgrState) :
    Option MgrState :=
  monitors.foldlM
    (fun st nd =>
      if startsWithPYR nd.1 then
        match regionFromName (nd.1.drop 4) with
        | some r =>
          match findGeom nd.2 with
          | some g =>
            some (set_state (draw_outline st r (g.1 : Int) (g.2.1 : Int) (g.2.2.1 : Int) (g.2.2.2 : Int)) r true).2
          | none => none
        | none => some st
      else some st)
    s

theorem updB_self (f : Region → Bool) (a : Region) (b : Bool) : updB f a b a = b := by
  simp [updB]

theorem updB_other (f : Region → Bool) (a : Region) (b : Bool) (r : Region) (h : r ≠ a) :
    updB f a b r = f r := by
  simp [updB, h]

theorem updO_self (f : Region → Option OutlineWidget) (a : Region) (v : Option OutlineWidget) :
    updO f a v a = v := by
  simp [updO]

theorem updO_other (f : Region → Option OutlineWidget) (a : Region) (v : Option OutlineWidget)
    (r : Region) (h : r ≠ a) : updO f a v r = f r := by
  simp [updO, h]

theorem updN_self (f : Region → Nat) (a : Region) (v : Nat) : updN f a v a = v := by
  simp [updN]

theorem updN_other (f : Region → Nat) (a : Region) (v : Nat) (r : Region) (h : r ≠ a) :
    updN f a v r = f r := by
  simp [updN, h]

theorem set_state_same (s : MgrState) (a : Region) (e : Bool)
    (h : s.enabled_displays a = e) : set_state s a e = (false, s) := by
  simp [set_state, check_invalid_state, h]

theorem set_state_enable (s : MgrState) (a : Region)
    (h : s.enabled_displays a = false) :
    set_state s a true =
      (true, { s with enabled_displays := updB s.enabled_displays a true }) := by
  simp [set_state, check_invalid_state, h]

theorem set_state_disable_none (s : MgrState) (a : Region)
    (h : s.enabled_displays a = true) (h2 : s.rectangles a = none) :
    set_state s a false =
      (true, { s with enabled_displays := updB s.enabled_displays a false }) := by
  simp [set_state, check_invalid_state, h, h2]

theorem set_state_disable_some (s : MgrState) (a : Region) (o : OutlineWidget)
    (h : s.enabled_displays a = true) (h2 : s.rectangles a = some o) :
    set_state s a false =
      (true, { s with enabled_displays := updB s.enabled_displays a false,
                      rectangles := updO s.rectangles a none,
                      alive := updN s.alive a (s.alive a - 1) }) := by
  simp [set_state, check_invalid_state, h, h2]

theorem draw_outline_enabled (s : MgrState) (a : Region) (w h x y : Int) :
    (draw_outline s a w h x y).enabled_displays = s.enabled_displays := by
  unfold draw_outline mkOutline
  split <;> rfl

theorem draw_outline_pending (s : MgrState) (a : Region) (w h x y : Int) :
    (draw_outline s a w h x y).pending = s.pending := by
  unfold draw_outline mkOutline
  split <;> rfl

theorem set_state_enabled_self (s : MgrState) (a : Region) (e : Bool) :
    ((set_state s a e).2).enabled_displays a = e := by
  unfold set_state check_invalid_state
  by_cases h : (e == s.enabled_displays a) = true
  · simp at h
    simp [h]
  · simp at h
    by_cases h2 : (!e && ((s.rectangles a).isSome)) = true <;> simp [h, h2, updB]

theorem set_state_pending (s : MgrState) (a : Region) (e : Bool) :
    ((set_state s a e).2).pending = s.pending := by
  unfold set_state check_invalid_state
  by_cases h : (e == s.enabled_displays a) = true <;>
    by_cases h2 : (!e && ((s.rectangles a).isSome)) = true <;> simp [h, h2]

theorem select_grid_enabled_self (scr : Nat × Nat) (a : Region) (parts row col : Nat)
    (s : MgrState) (en : Bool) :
    ((select_grid scr a parts row col s en).1).enabled_displays a = en := by
  unfold select_grid
  by_cases h : (set_state s a en).1 = true
  · by_cases h2 : en = true
    · subst h2
      simp [h, draw_outline_enabled, set_state_enabled_self]
    · have h3 : en = false := by simpa using h2
      subst h3
      simp [h, set_state_enabled_self]
  · simp [h, set_state_enabled_self]

/-- Claim C1: when the stored flag for a region already equals the requested
value, `set_state` reports `changed = false` and leaves the whole manager
state (toggle store, overlay set, live-widget counts) untouched, and it
performs no gateway call; consequently a second consecutive
`select_left_half` call with the same argument returns with the state
unchanged and an empty gateway trace. -/
theorem c1_set_state_idempotent :
    (∀ (s : MgrState) (r : Region) (x : Bool), s.enabled_displays r = x →
      set_state s r x = (false, s)) ∧
    (∀ (scr : Nat × Nat) (s : MgrState) (en : Bool),
      select_left_half scr (select_left_half scr s en).1 en
        = ((select_left_half scr s en).1, [])) := by
  constructor
  · exact fun s r x h => set_state_same s r x h
  · intro scr s en
    have h : ((select_left_half scr s en).1).enabled_displays Region.left_half = en :=
      select_grid_enabled_self scr Region.left_half 2 0 0 s en
    show select_grid scr Region.left_half 2 0 0 (select_left_half scr s en).1 en
      = ((select_left_half scr s en).1, [])
    rw [select_grid, set_state_same _ _ _ h]
    simp

/-- Witness for C1: on the freshly constructed manager, disabling
`left_half` (already disabled) is a recognized no-op. -/
theorem c1_set_state_idempotent_witness :
    set_state initState Region.left_half false = (false, initState) :=
  c1_set_state_idempotent.1 initState Region.left_half false rfl

theorem inv_rect_of_not_enabled (s : MgrState) (hInv : Inv s) (hp : s.pending = false)
    (a : Region) (h : s.enabled_displays a = false) : s.rectangles a = none := by
  have h3 := hInv.2.2 a (by intro hpend; rw [hp] at hpend; simp at hpend)
  cases hr : s.rectangles a with
  | none => rfl
  | some o =>
    have : s.enabled_displays a = true := h3.mpr (by rw [hr]; rfl)
    rw [h] at this
    simp at this

theorem inv_some_of_enabled (s : MgrState) (hInv : Inv s) (hp : s.pending = false)
    (a : Region) (h : s.enabled_displays a = true) : ∃ o, s.rectangles a = some o := by
  have h3 := (hInv.2.2 a (by intro hpend; rw [hp] at hpend; simp at hpend)).mp h
  cases hr : s.rectangles a with
  | none => rw [hr] at h3; simp at h3
  | some o => exact ⟨o, rfl⟩

theorem inv_enable_mk (s : MgrState) (a : Region) (p1 p2 : Point)
    (hInv : Inv s) (hp : s.pending = false) (hen : s.enabled_displays a = false) :
    Inv (mkOutline { s with enabled_displays := updB s.enabled_displays a true } a p1 p2) := by
  have hrect : s.rectangles a = none := inv_rect_of_not_enabled s hInv hp a hen
  have halive : s.alive a = 0 := by rw [hInv.1 a, hrect]; rfl
  refine ⟨?_, ?_, ?_⟩
  · intro r
    by_cases hr : r = a
    · subst hr
      simp [mkOutline, updO_self, updN_self, halive]
    · simp [mkOutline, updO_other _ _ _ _ hr, updN_other _ _ _ _ hr]
      exact hInv.1 r
  · intro hpend
    simp [mkOutline] at hpend
    rw [hp] at hpend
    simp at hpend
  · intro r _
    by_cases hr : r = a
    · subst hr
      simp [mkOutline, updB_self, updO_self]
    · simp [mkOutline, updB_other _ _ _ _ hr, updO_other _ _ _ _ hr]
      simpa using hInv.2.2 r (by intro hpend; rw [hp] at hpend; simp at hpend)

theorem inv_enable_draw (s : MgrState) (a : Region) (w h x y : Int)
    (hInv : Inv s) (hp : s.pending = false) (hen : s.enabled_displays a = false) :
    Inv (draw_outline { s with enabled_displays := updB s.enabled_displays a true } a w h x y) := by
  have hrect : s.rectangles a = none := inv_rect_of_not_enabled s hInv hp a hen
  have : draw_outline { s with enabled_displays := updB s.enabled_displays a true } a w h x y
      = mkOutline { s with enabled_displays := updB s.enabled_displays a true } a
          { x := x, y := y } { x := x + w, y := y + h } := by
    unfold draw_outline
    simp [hrect]
  rw [this]
  exact inv_enable_mk s a _ _ hInv hp hen

theorem inv_disable (s : MgrState) (a : Region) (hInv : Inv s) (hp : s.pending = false)
    (hen : s.enabled_displays a = true) : Inv (set_state s a false).2 := by
  obtain ⟨o, hrect⟩ := inv_some_of_enabled s hInv hp a hen
  have halive : s.alive a = 1 := by rw [hInv.1 a, hrect]; rfl
  rw [set_state_disable_some s a o hen hrect]
  refine ⟨?_, ?_, ?_⟩
  · intro r
    by_cases hr : r = a
    · subst hr
      simp [updO_self, updN_self, halive]
    · simp [updO_other _ _ _ _ hr, updN_other _ _ _ _ hr]
      exact hInv.1 r
  · intro hpend
    simp at hpend
    rw [hp] at hpend
    simp at hpend
  · intro r _
    by_cases hr : r = a
    · subst hr
      simp [updB_self, updO_self]
    · simp [updB_other _ _ _ _ hr, updO_other _ _ _ _ hr]
      simpa using hInv.2.2 r (by intro hpend; rw [hp] at hpend; simp at hpend)

theorem inv_select_grid (scr : Nat × Nat) (a : Region) (parts row col : Nat)
    (s : MgrState) (en : Bool) (hInv : Inv s) (hp : s.pending = false) :
    Inv (select_grid scr a parts row col s en).1 := by
  by_cases hch : s.enabled_displays a = en
  · simpa [select_grid, set_state_same s a en hch] using hInv
  · cases en with
    | true =>
      have hen : s.enabled_displays a = false := by
        cases h : s.enabled_displays a
        · rfl
        · exact absurd h hch
      have hgoal : (select_grid scr a parts row col s true).1
          = draw_outline { s with enabled_displays := updB s.enabled_displays a true } a
              (((divide_screen scr.1 scr.2 parts).getD row []).getD col (0, 0, 0, 0)).1
              (((divide_screen scr.1 scr.2 parts).getD row []).getD col (0, 0, 0, 0)).2.1
              (((divide_screen scr.1 scr.2 parts).getD row []).getD col (0, 0, 0, 0)).2.2.1
              (((divide_screen scr.1 scr.2 parts).getD row []).getD col (0, 0, 0, 0)).2.2.2 := by
        simp [select_grid, set_state_enable s a hen]
      rw [hgoal]
      exact inv_enable_draw s a _ _ _ _ hInv hp hen
    | false =>
      have hen : s.enabled_displays a = true := by
        cases h : s.enabled_displays a
        · exact absurd h hch
        · rfl
      obtain ⟨o, hrect⟩ := inv_some_of_enabled s hInv hp a hen
      have hres1 : (set_state s a false).1 = true := by
        rw [set_state_disable_some s a o hen hrect]
      have hgoal : (select_grid scr a parts row col s false).1 = (set_state s a false).2 := by
        simp [select_grid, hres1]
      rw [hgoal]
      exact inv_disable s a hInv hp hen

theorem inv_select_full (scr : Nat × Nat) (s : MgrState) (en : Bool)
    (hInv : Inv s) (hp : s.pending = false) :
    Inv (select_full_screen scr s en).1 := by
  by_cases hch : s.enabled_displays Region.full_screen = en
  · simpa [select_full_screen, set_state_same s Region.full_screen en hch] using hInv
  · cases en with
    | true =>
      have hen : s.enabled_displays Region.full_screen = false := by
        cases h : s.enabled_displays Region.full_screen
        · rfl
        · exact absurd h hch
      have hgoal : (select_full_screen scr s true).1
          = mkOutline
              { s with enabled_displays := updB s.enabled_displays Region.full_screen true }
              Region.full_screen { x := 0, y := 0 } { x := (scr.1 : Int), y := (scr.2 : Int) } := by
        simp [select_full_screen, set_state_enable s Region.full_screen hen]
      rw [hgoal]
      exact inv_enable_mk s Region.full_screen _ _ hInv hp hen
    | false =>
      have hen : s.enabled_displays Region.full_screen = true := by
        cases h : s.enabled_displays Region.full_screen
        · exact absurd h hch
        · rfl
      obtain ⟨o, hrect⟩ := inv_some_of_enabled s hInv hp Region.full_screen hen
      have hres1 : (set_state s Region.full_screen false).1 = true := by
        rw [set_state_disable_some s Region.full_screen o hen hrect]
      have hgoal : (select_full_screen scr s false).1
          = (set_state s Region.full_screen false).2 := by
        simp [select_full_screen, hres1]
      rw [hgoal]
      exact inv_disable s Region.full_screen hInv hp hen

theorem inv_select_region (s : MgrState) (en : Bool)
    (hInv : Inv s) (hp : s.pending = false) :
    Inv (select_region s en).1 := by
  by_cases hch : s.enabled_displays Region.select_region = en
  · simpa [select_region, set_state_same s Region.select_region en hch] using hInv
  · cases en with
    | true =>
      have hen : s.enabled_displays Region.select_region = false := by
        cases h : s.enabled_displays Region.select_region
        · rfl
        · exact absurd h hch
      have hrect : s.rectangles Region.select_region = none :=
        inv_rect_of_not_enabled s hInv hp Region.select_region hen
      have hgoal : (select_region s true).1
          = { s with
                enabled_displays := updB s.enabled_displays Region.select_region true,
                pending := true } := by
        simp [select_region, set_state_enable s Region.select_region hen]
      rw [hgoal]
      refine ⟨hInv.1, ?_, ?_⟩
      · intro _
        refine ⟨?_, hrect⟩
        simp [updB_self]
      · intro r hr
        have hr2 : r ≠ Region.select_region := hr rfl
        simp [updB_other _ _ _ _ hr2]
        simpa using hInv.2.2 r (by intro hpend; rw [hp] at hpend; simp at hpend)
    | false =>
      have hen : s.enabled_displays Region.select_region = true := by
        cases h : s.enabled_displays Region.select_region
        · exact absurd h hch
        · rfl
      obtain ⟨o, hrect⟩ := inv_some_of_enabled s hInv hp Region.select_region hen
      have hres1 : (set_state s Region.select_region false).1 = true := by
        rw [set_state_disable_some s Region.select_region o hen hrect]
      have hgoal : (select_region s false).1 = (set_state s Region.select_region false).2 := by
        simp [select_region, hres1]
      rw [hgoal]
      exact inv_disable s Region.select_region hInv hp hen

theorem inv_complete (s : MgrState) (p1 p2 : Point)
    (hInv : Inv s) (hp : s.pending = true) :
    Inv (complete_region_selection s p1 p2).1 := by
  obtain ⟨hen, hrect⟩ := hInv.2.1 hp
  have halive : s.alive Region.select_region = 0 := by rw [hInv.1 _, hrect]; rfl
  refine ⟨?_, ?_, ?_⟩
  · intro r
    by_cases hr : r = Region.select_region
    · subst hr
      simp [complete_region_selection, mkOutline, updO_self, updN_self, halive]
    · simp [complete_region_selection, mkOutline,
        updO_other _ _ _ _ hr, updN_other _ _ _ _ hr]
      exact hInv.1 r
  · intro hpend
    simp [complete_region_selection, mkOutline] at hpend
  · intro r _
    by_cases hr : r = Region.select_region
    · subst hr
      simp [complete_region_selection, mkOutline, updO_self, hen]
    · simp [complete_region_selection, mkOutline, updO_other _ _ _ _ hr]
      simpa using hInv.2.2 r (fun _ => hr)

theorem inv_cancel (s : MgrState) (hInv : Inv s) (hp : s.pending = true) :
    Inv (cancel_region_selection s).1 := by
  obtain ⟨hen, hrect⟩ := hInv.2.1 hp
  have hgoal : (cancel_region_selection s).1
      = { s with
            enabled_displays := updB s.enabled_displays Region.select_region false,
            pending := false } := by
    simp [cancel_region_selection, set_state_disable_none s Region.select_region hen hrect]
  rw [hgoal]
  refine ⟨hInv.1, ?_, ?_⟩
  · intro hpend
    simp at hpend
  · intro r _
    by_cases hr : r = Region.select_region
    · subst hr
      simp [updB_self, hrect]
    · simp [updB_other _ _ _ _ hr]
      simpa using hInv.2.2 r (fun _ => hr)

theorem inv_step {scr : Nat × Nat} {s t : MgrState} (h : Step scr s t) (hInv : Inv s) :
    Inv t := by
  cases h with
  | grid r parts row col en _ hp => exact inv_select_grid scr r parts row col s en hInv hp
  | full en hp => exact inv_select_full scr s en hInv hp
  | selTog en hp => exact inv_select_region s en hInv hp
  | complete p1 p2 hp => exact inv_complete s p1 p2 hInv hp
  | cancel hp => exact inv_cancel s hInv hp

theorem inv_initState : Inv initState := by
  refine ⟨?_, ?_, ?_⟩
  · intro r
    simp [initState]
  · intro hpend
    simp [initState] at hpend
  · intro r _
    simp [initState]

/-- Claim C2 counterexample: the enabling `select_region` toggle is a
completed toggle event (it is a single `Step` from the initial state), yet in
the state it produces the stored flag for `select_region` is `true` while no
Outline Overlay for it exists — the overlay is only created later, when the
drag completes.  So the flag is not equivalent to overlay existence after
every completed toggle event. -/
theorem c2_flag_overlay_counterexample :
    Reachable (1920, 1080) (select_region initState true).1 ∧
    (select_region initState true).1.enabled_displays Region.select_region = true ∧
    (select_region initState true).1.rectangles Region.select_region = none := by
  refine ⟨Reachable.step Reachable.init (Step.selTog true rfl), ?_, ?_⟩ <;> decide

/-- Claim C2 (amended): after every completed toggle or selection-callback
event, every region has at most one live Outline Overlay (the overlay
dictionary holds exactly the live widgets, so `alive r ≤ 1`), and the stored
flag for a region is true iff a live overlay for it exists — except
`select_region` during a pending drag-selection, where the flag is already
true while its overlay does not yet exist. -/
theorem c2_store_overlay_invariant (scr : Nat × Nat) (s : MgrState)
    (h : Reachable scr s) : Inv s := by
  induction h with
  | init => exact inv_initState
  | step _ hstep ih => exact inv_step hstep ih

/-- Witness for C2 (amended): the invariant holds in the concrete state
reached by toggling `full_screen` on from the initial state. -/
theorem c2_store_overlay_invariant_witness :
    Inv (select_full_screen (1920, 1080) initState true).1 :=
  c2_store_overlay_invariant (1920, 1080) _
    (Reachable.step Reachable.init (Step.full true rfl))

/-- Claim C9 counterexample: `divide_screen` performs no validation of
`parts`.  For `parts = 5 ∉ {2,3,4,6}` the call does not fail: it returns a
well-formed 2×2 grid (of 768×540 cells on a 1920×1080 screen) instead of
rejecting the argument. -/
theorem c9_no_rejection_counterexample :
    divide_screen 1920 1080 5
      = [[(768, 540, 0, 0), (768, 540, 768, 0)],
         [(768, 540, 0, 540), (768, 540, 768, 540)]] ∧
    divide_screen 1920 1080 5 ≠ [] := by
  constructor <;> decide

/-- Claim C9 (amended): the partitioner is a pure, deterministic function
with no side effects and performs no validation of `parts`: for every
`parts ≥ 1` — including values outside `{2, 3, 4, 6}` — it returns a grid
with `rows = 2 if parts > 3 else 1` rows of `parts / rows` cells each rather
than rejecting the argument.  (Only `parts = 0` fails in the source, with a
`ZeroDivisionError`.) -/
theorem c9_partitioner_no_validation (w h parts : Nat) (hp : 1 ≤ parts) :
    (divide_screen w h parts).length = (if 3 < parts then 2 else 1) ∧
    ∀ row ∈ divide_screen w h parts,
      row.length = parts / (if 3 < parts then 2 else 1) := by
  constructor
  · simp [divide_screen]
  · intro row hrow
    simp only [divide_screen, List.mem_map, List.mem_range] at hrow
    obtain ⟨r, _, hr⟩ := hrow
    rw [← hr]
    simp

/-- Witness for C9 (amended): the unsupported value `parts = 5` yields a
2-row grid of 2 cells per row. -/
theorem c9_partitioner_no_validation_witness :
    1 ≤ 5 ∧
    ((divide_screen 1920 1080 5).length = (if 3 < 5 then 2 else 1) ∧
     ∀ row ∈ divide_screen 1920 1080 5,
       row.length = 5 / (if 3 < 5 then 2 else 1)) :=
  ⟨by decide, c9_partitioner_no_validation 1920 1080 5 (by decide)⟩

theorem ceilDivNat_eq_ceil (a b : Nat) (hb : 0 < b) :
    ceilDivNat a b = Nat.ceil ((a : ℚ) / (b : ℚ)) := by
  have hb' : (0 : ℚ) < (b : ℚ) := by exact_mod_cast hb
  rcases Nat.eq_zero_or_pos a with ha | ha
  · subst ha
    simp [ceilDivNat, Nat.div_eq_of_lt (Nat.sub_lt hb Nat.one_pos)]
  · have hd : ceilDivNat a b = (a - 1) / b + 1 := by
      unfold ceilDivNat
      have h1 : a + (b - 1) = (a - 1) + b := by omega
      rw [h1, Nat.add_div_right _ hb]
    rw [hd]
    symm
    rw [Nat.ceil_eq_iff (Nat.succ_ne_zero _)]
    constructor
    · have hred : (a - 1) / b + 1 - 1 = (a - 1) / b := Nat.add_sub_cancel _ _
      rw [hred, lt_div_iff₀ hb']
      have h2 : ((a - 1) / b * b : ℕ) ≤ (a - 1 : ℕ) := Nat.div_mul_le_self _ _
      have h3 : (a - 1 : ℕ) < a := Nat.sub_lt ha Nat.one_pos
      calc ((((a - 1) / b : ℕ) : ℚ)) * (b : ℚ) = (((a - 1) / b * b : ℕ) : ℚ) := by push_cast; ring
        _ ≤ ((a - 1 : ℕ) : ℚ) := by exact_mod_cast h2
        _ < (a : ℚ) := by exact_mod_cast h3
    · rw [div_le_iff₀ hb']
      have h2 := Nat.div_add_mod (a - 1) b
      have h3 : (a - 1) % b < b := Nat.mod_lt _ hb
      have h4 : a ≤ ((a - 1) / b + 1) * b := by
        have h5 : ((a - 1) / b + 1) * b = b * ((a - 1) / b) + b := by ring
        omega
      calc (a : ℚ) ≤ ((((a - 1) / b + 1) * b : ℕ) : ℚ) := by exact_mod_cast h4
        _ = (((a - 1) / b + 1 : ℕ) : ℚ) * (b : ℚ) := by push_cast; ring

theorem le_mul_ceilDivNat (a b : Nat) (hb : 0 < b) : a ≤ ceilDivNat a b * b := by
  rcases Nat.eq_zero_or_pos a with ha | ha
  · simp [ha]
  · have hd : ceilDivNat a b = (a - 1) / b + 1 := by
      unfold ceilDivNat
      have h1 : a + (b - 1) = (a - 1) + b := by omega
      rw [h1, Nat.add_div_right _ hb]
    rw [hd]
    have h2 := Nat.div_add_mod (a - 1) b
    have h3 : (a - 1) % b < b := Nat.mod_lt _ hb
    have h5 : ((a - 1) / b + 1) * b = b * ((a - 1) / b) + b := by ring
    omega

theorem ceilDivNat_mul_le (a b : Nat) : ceilDivNat a b * b ≤ a + (b - 1) := by
  unfold ceilDivNat
  exact Nat.div_mul_le_self _ _

/-- The `(r, c)` entry of the `divide_screen` grid (with an out-of-range
default, as total indexing). -/
def cellAt (w h parts r c : Nat) : Nat × Nat × Nat × Nat :=
  ((divide_screen w h parts).getD r []).getD c (0, 0, 0, 0)

/-- Membership of the pixel `(px, py)` in a cell `(pw, ph, x, y)`:
`x ≤ px < x + pw` and `y ≤ py < y + ph`. -/
def cellContains (cell : Nat × Nat × Nat × Nat) (px py : Nat) : Prop :=
  cell.2.2.1 ≤ px ∧ px < cell.2.2.1 + cell.1 ∧
  cell.2.2.2 ≤ py ∧ py < cell.2.2.2 + cell.2.1

theorem cellAt_eq (w h parts r c : Nat)
    (hr : r < (if 3 < parts then 2 else 1))
    (hc : c < parts / (if 3 < parts then 2 else 1)) :
    cellAt w h parts r c =
      (ceilDivNat (w * (if 3 < parts then 2 else 1)) parts,
       ceilDivNat h (if 3 < parts then 2 else 1),
       ceilDivNat (w * (if 3 < parts then 2 else 1)) parts * c,
       ceilDivNat h (if 3 < parts then 2 else 1) * r) := by
  unfold cellAt divide_screen
  simp [List.getD_eq_getElem?_getD, List.getElem?_map, List.getElem?_range, hr, hc]

theorem interval_disjoint (p x : Nat) {c c2 : Nat} (hlt : c < c2)
    (h2 : x < p * c + p) (h3 : p * c2 ≤ x) : False := by
  have h6 : p * (c + 1) ≤ p * c2 := Nat.mul_le_mul_left p hlt
  have h5 : p * (c + 1) = p * c + p := by ring
  omega

theorem interval_cover (p cols x w : Nat) (hp : 0 < p) (hx : x < w) (hcov : w ≤ p * cols) :
    x / p < cols ∧ p * (x / p) ≤ x ∧ x < p * (x / p) + p := by
  refine ⟨?_, ?_, ?_⟩
  · rw [Nat.div_lt_iff_lt_mul hp]
    calc x < w := hx
      _ ≤ p * cols := hcov
      _ = cols * p := by ring
  · calc p * (x / p) = x / p * p := by ring
      _ ≤ x := Nat.div_mul_le_self x p
  · have h1 : x / p < x / p + 1 := Nat.lt_succ_self _
    have h2 := (Nat.div_lt_iff_lt_mul hp).mp h1
    calc x < (x / p + 1) * p := h2
      _ = p * (x / p) + p := by ring

theorem grid_no_overlap (pw ph : Nat) {r c r2 c2 px py : Nat}
    (hne : (r, c) ≠ (r2, c2))
    (m1 : pw * c ≤ px) (m2 : px < pw * c + pw)
    (m3 : ph * r ≤ py) (m4 : py < ph * r + ph)
    (n1 : pw * c2 ≤ px) (n2 : px < pw * c2 + pw)
    (n3 : ph * r2 ≤ py) (n4 : py < ph * r2 + ph) : False := by
  by_cases hcc : c = c2
  · subst hcc
    by_cases hrr : r = r2
    · subst hrr
      exact hne rfl
    · rcases Nat.lt_or_ge r r2 with hlt | hge
      · exact interval_disjoint ph py hlt m4 n3
      · have hlt : r2 < r := by omega
        exact interval_disjoint ph py hlt n4 m3
  · rcases Nat.lt_or_ge c c2 with hlt | hge
    · exact interval_disjoint pw px hlt m2 n1
    · have hlt : c2 < c := by omega
      exact interval_disjoint pw px hlt n2 m1

theorem grid_tiling_core (w h parts rows cols : Nat) (hmul : rows * cols = parts)
    (hrows : 0 < rows) (hcols : 0 < cols) (hw : 0 < w) (hh : 0 < h)
    (hrw : rows = (if 3 < parts then 2 else 1)) :
    (∀ r c r2 c2 px py : Nat, r < rows → c < cols → r2 < rows → c2 < cols →
      (r, c) ≠ (r2, c2) → cellContains (cellAt w h parts r c) px py →
      cellContains (cellAt w h parts r2 c2) px py → False) ∧
    (∀ px py : Nat, px < w → py < h →
      ∃ r c, r < rows ∧ c < cols ∧ cellContains (cellAt w h parts r c) px py) ∧
    (∀ r c : Nat, r < rows → c < cols →
      (cellAt w h parts r c).2.2.1 + (cellAt w h parts r c).1 ≤ w + (cols - 1) ∧
      (cellAt w h parts r c).2.2.2 + (cellAt w h parts r c).2.1 ≤ h + (rows - 1)) := by
  have hpos : 0 < parts := hmul ▸ Nat.mul_pos hrows hcols
  have hcl : parts / (if 3 < parts then 2 else 1) = cols := by
    rw [← hrw, ← hmul, Nat.mul_div_cancel_left cols hrows]
  set pw := ceilDivNat (w * rows) parts with hpw_def
  set ph := ceilDivNat h rows with hph_def
  have hwle : w ≤ pw * cols := by
    have h1 : w * rows ≤ pw * parts := by
      have := le_mul_ceilDivNat (w * rows) parts hpos
      rw [hpw_def]
      omega
    have h2 : w * rows ≤ (pw * cols) * rows := by
      calc w * rows ≤ pw * parts := h1
        _ = (pw * cols) * rows := by rw [← hmul]; ring
    exact Nat.le_of_mul_le_mul_right h2 hrows
  have hhle : h ≤ ph * rows := le_mul_ceilDivNat h rows hrows
  have hpw : 0 < pw := by
    rcases Nat.eq_zero_or_pos pw with h0 | h0
    · rw [h0] at hwle
      simp at hwle
      omega
    · exact h0
  have hph : 0 < ph := by
    rcases Nat.eq_zero_or_pos ph with h0 | h0
    · rw [h0] at hhle
      simp at hhle
      omega
    · exact h0
  have hexw : pw * cols ≤ w + (cols - 1) := by
    by_contra hcon
    push_neg at hcon
    have h3 : w + cols ≤ pw * cols := by omega
    have h4 : (w + cols) * rows ≤ (pw * cols) * rows := Nat.mul_le_mul_right rows h3
    have h5 : pw * parts ≤ w * rows + (parts - 1) := ceilDivNat_mul_le (w * rows) parts
    have h6 : (pw * cols) * rows = pw * parts := by rw [← hmul]; ring
    have h7 : (w + cols) * rows = w * rows + cols * rows := by ring
    have h8 : cols * rows = parts := by rw [← hmul]; ring
    rw [h6, h7, h8] at h4
    omega
  have hexh : ph * rows ≤ h + (rows - 1) := ceilDivNat_mul_le h rows
  have hcell : ∀ r c : Nat, r < rows → c < cols →
      cellAt w h parts r c = (pw, ph, pw * c, ph * r) := by
    intro r c hr hc
    rw [cellAt_eq w h parts r c (by rw [← hrw]; exact hr) (by rw [hcl]; exact hc),
      ← hrw]
  refine ⟨?_, ?_, ?_⟩
  · intro r c r2 c2 px py hr hc hr2 hc2 hne hm hn
    rw [hcell r c hr hc] at hm
    rw [hcell r2 c2 hr2 hc2] at hn
    obtain ⟨m1, m2, m3, m4⟩ := hm
    obtain ⟨n1, n2, n3, n4⟩ := hn
    exact grid_no_overlap pw ph hne m1 m2 m3 m4 n1 n2 n3 n4
  · intro px py hx hy
    obtain ⟨hcx, hcx1, hcx2⟩ := interval_cover pw cols px w hpw hx hwle
    obtain ⟨hcy, hcy1, hcy2⟩ := interval_cover ph rows py h hph hy hhle
    refine ⟨py / ph, px / pw, hcy, hcx, ?_⟩
    rw [hcell _ _ hcy hcx]
    exact ⟨hcx1, hcx2, hcy1, hcy2⟩
  · intro r c hr hc
    rw [hcell r c hr hc]
    dsimp only
    constructor
    · have h9 : pw * c + pw = pw * (c + 1) := by ring
      have h10 : pw * (c + 1) ≤ pw * cols := Nat.mul_le_mul_left pw hc
      omega
    · have h9 : ph * r + ph = ph * (r + 1) := by ring
      have h10 : ph * (r + 1) ≤ ph * rows := Nat.mul_le_mul_left ph hr
      omega

/-- Claim C3: for every screen size and `parts ∈ {2, 3, 4, 6}`, the
partitioner returns the grid with `rows = 2 if parts > 3 else 1`,
`parts / rows` columns, every cell of width `ceil(w / parts * rows)` and
height `ceil(h / rows)` (exact rational ceilings), and cell `(r, c)` at
origin `(cell_width * c, cell_height * r)`; in particular
`divide_screen 1920 1080 4` is four 960×540 cells at
(0,0), (960,0), (0,540), (960,540). -/
theorem c3_divide_screen_formula :
    (∀ w h parts : Nat, parts = 2 ∨ parts = 3 ∨ parts = 4 ∨ parts = 6 →
      divide_screen w h parts =
        (List.range (if 3 < parts then 2 else 1)).map fun r =>
          (List.range (parts / (if 3 < parts then 2 else 1))).map fun c =>
            (Nat.ceil ((w : ℚ) / (parts : ℚ) * (((if 3 < parts then 2 else 1 : Nat)) : ℚ)),
             Nat.ceil ((h : ℚ) / (((if 3 < parts then 2 else 1 : Nat)) : ℚ)),
             Nat.ceil ((w : ℚ) / (parts : ℚ) * (((if 3 < parts then 2 else 1 : Nat)) : ℚ)) * c,
             Nat.ceil ((h : ℚ) / (((if 3 < parts then 2 else 1 : Nat)) : ℚ)) * r)) ∧
    divide_screen 1920 1080 4
      = [[(960, 540, 0, 0), (960, 540, 960, 0)],
         [(960, 540, 0, 540), (960, 540, 960, 540)]] := by
  constructor
  · intro w h parts hparts
    have hpos : 0 < parts := by rcases hparts with h1 | h1 | h1 | h1 <;> subst h1 <;> decide
    have hrows : 0 < (if 3 < parts then 2 else 1 : Nat) := by split <;> decide
    set rows := (if 3 < parts then 2 else 1 : Nat) with hrowsdef
    have h1 : ceilDivNat (w * rows) parts = Nat.ceil ((w : ℚ) / (parts : ℚ) * (rows : ℚ)) := by
      rw [ceilDivNat_eq_ceil _ _ hpos]
      congr 1
      push_cast
      ring
    have h2 : ceilDivNat h rows = Nat.ceil ((h : ℚ) / (rows : ℚ)) :=
      ceilDivNat_eq_ceil _ _ hrows
    rw [← h1, ← h2]
    rfl
  · decide

/-- Witness for C3: the formula evaluated at the 1920×1080, `parts = 4`
scenario. -/
theorem c3_divide_screen_formula_witness :
    ((4 : Nat) = 2 ∨ (4 : Nat) = 3 ∨ (4 : Nat) = 4 ∨ (4 : Nat) = 6) ∧
    divide_screen 1920 1080 4 =
      (List.range (if 3 < (4 : Nat) then 2 else 1)).map (fun r =>
        (List.range ((4 : Nat) / (if 3 < (4 : Nat) then 2 else 1))).map fun c =>
          (Nat.ceil (((1920 : Nat) : ℚ) / (((4 : Nat)) : ℚ) * (((if 3 < (4 : Nat) then 2 else 1 : Nat)) : ℚ)),
           Nat.ceil (((1080 : Nat) : ℚ) / (((if 3 < (4 : Nat) then 2 else 1 : Nat)) : ℚ)),
           Nat.ceil (((1920 : Nat) : ℚ) / (((4 : Nat)) : ℚ) * (((if 3 < (4 : Nat) then 2 else 1 : Nat)) : ℚ)) * c,
           Nat.ceil (((1080 : Nat) : ℚ) / (((if 3 < (4 : Nat) then 2 else 1 : Nat)) : ℚ)) * r)) :=
  ⟨by decide, c3_divide_screen_formula.1 1920 1080 4 (by decide)⟩

/-- Claim C4: for `parts ∈ {2, 3, 4, 6}` and every positive screen size the
partitioner's cells are pairwise non-overlapping and cover the screen area;
ceiling rounding lets the grid extend past the screen edge by at most
`cols - 1` pixels horizontally and `rows - 1` pixels vertically in total
(i.e. less than one pixel per cell per dimension), and never leaves interior
gaps. -/
theorem c4_partition_tiling (w h parts : Nat)
    (hparts : parts = 2 ∨ parts = 3 ∨ parts = 4 ∨ parts = 6)
    (hw : 0 < w) (hh : 0 < h) :
    ∀ rows cols : Nat, rows = (if 3 < parts then 2 else 1) → cols = parts / rows →
      ((∀ r c r2 c2 px py : Nat, r < rows → c < cols → r2 < rows → c2 < cols →
          (r, c) ≠ (r2, c2) → cellContains (cellAt w h parts r c) px py →
          cellContains (cellAt w h parts r2 c2) px py → False) ∧
       (∀ px py : Nat, px < w → py < h →
          ∃ r c, r < rows ∧ c < cols ∧ cellContains (cellAt w h parts r c) px py) ∧
       (∀ r c : Nat, r < rows → c < cols →
          (cellAt w h parts r c).2.2.1 + (cellAt w h parts r c).1 ≤ w + (cols - 1) ∧
          (cellAt w h parts r c).2.2.2 + (cellAt w h parts r c).2.1 ≤ h + (rows - 1))) := by
  intro rows cols hrw hcl
  rcases hparts with h1 | h1 | h1 | h1 <;> subst h1 <;> subst hrw <;> subst hcl <;>
    exact grid_tiling_core w h _ _ _ (by decide) (by decide) (by decide) hw hh (by decide)

/-- Witness for C4: instantiated on a 1920×1080 screen with `parts = 4`. -/
theorem c4_partition_tiling_witness :
    ((4 : Nat) = 2 ∨ (4 : Nat) = 3 ∨ (4 : Nat) = 4 ∨ (4 : Nat) = 6) ∧ 0 < 1920 ∧ 0 < 1080 ∧
    (2 : Nat) = (if 3 < (4 : Nat) then 2 else 1) ∧ (2 : Nat) = (4 : Nat) / 2 ∧
    ((∀ r c r2 c2 px py : Nat, r < 2 → c < 2 → r2 < 2 → c2 < 2 →
        (r, c) ≠ (r2, c2) → cellContains (cellAt 1920 1080 4 r c) px py →
        cellContains (cellAt 1920 1080 4 r2 c2) px py → False) ∧
     (∀ px py : Nat, px < 1920 → py < 1080 →
        ∃ r c, r < 2 ∧ c < 2 ∧ cellContains (cellAt 1920 1080 4 r c) px py) ∧
     (∀ r c : Nat, r < 2 → c < 2 →
        (cellAt 1920 1080 4 r c).2.2.1 + (cellAt 1920 1080 4 r c).1 ≤ 1920 + (2 - 1) ∧
        (cellAt 1920 1080 4 r c).2.2.2 + (cellAt 1920 1080 4 r c).2.1 ≤ 1080 + (2 - 1))) :=
  ⟨by decide, by decide, by decide, by decide, by decide,
    c4_partition_tiling 1920 1080 4 (by decide) (by decide) (by decide) 2 2 (by decide) (by decide)⟩

theorem snipRun_append (s : Snip) (a b : List SnipEv) :
    snipRun s (a ++ b)
      = ((snipRun (snipRun s a).1 b).1,
         (snipRun s a).2 ++ (snipRun (snipRun s a).1 b).2) := by
  induction a generalizing s with
  | nil => simp [snipRun]
  | cons e es ih => simp [snipRun, ih]

theorem snipRun_nt (s : Snip) (evs : List NTEv) :
    (snipRun s (evs.map ntToEv)).2 = [] ∧
    (snipRun s (evs.map ntToEv)).1.is_snipping = s.is_snipping ∧
    (snipRun s (evs.map ntToEv)).1.onCompleted = s.onCompleted ∧
    (snipRun s (evs.map ntToEv)).1.onCancelled = s.onCancelled ∧
    (snipRun s (evs.map ntToEv)).1.closed = s.closed := by
  induction evs generalizing s with
  | nil => simp [snipRun]
  | cons e es ih =>
    cases e with
    | press p => simpa [snipRun, snipStep, mousePress, ntToEv] using ih (mousePress s p)
    | move p => simpa [snipRun, snipStep, mouseMove, ntToEv] using ih (mouseMove s p)
    | keyOther => simpa [snipRun, snipStep, keyPress, ntToEv] using ih s

theorem snipRun_moves (ps : List Point) (s : Snip) :
    snipRun s (ps.map SnipEv.move) = ({ s with end_ := ps.getLastD s.end_ }, []) := by
  induction ps generalizing s with
  | nil => simp [snipRun]
  | cons p ps ih =>
    have h1 : snipRun s ((p :: ps).map SnipEv.move)
        = ((snipRun (mouseMove s p) (ps.map SnipEv.move)).1,
           [] ++ (snipRun (mouseMove s p) (ps.map SnipEv.move)).2) := rfl
    rw [h1, ih (mouseMove s p), List.getLastD_cons]
    rfl

theorem snipRun_release_general (s : Snip) (pre : List NTEv) (hc : s.onCompleted = true) :
    ∃ p1 p2, (snipRun s (pre.map ntToEv ++ [SnipEv.release])).2 = [CB.completed p1 p2] := by
  obtain ⟨hnil, _, hcomp, _, _⟩ := snipRun_nt s pre
  refine ⟨{ x := min (snipRun s (pre.map ntToEv)).1.begin_.x (snipRun s (pre.map ntToEv)).1.end_.x,
            y := min (snipRun s (pre.map ntToEv)).1.begin_.y (snipRun s (pre.map ntToEv)).1.end_.y },
          { x := max (snipRun s (pre.map ntToEv)).1.begin_.x (snipRun s (pre.map ntToEv)).1.end_.x,
            y := max (snipRun s (pre.map ntToEv)).1.begin_.y (snipRun s (pre.map ntToEv)).1.end_.y },
          ?_⟩
  rw [snipRun_append, hnil]
  have h2 : (snipRun (snipRun s (pre.map ntToEv)).1 [SnipEv.release])
      = ((mouseRelease (snipRun s (pre.map ntToEv)).1).1,
         (mouseRelease (snipRun s (pre.map ntToEv)).1).2 ++ []) := rfl
  rw [h2]
  simp [mouseRelease, hcomp, hc]

theorem snipRun_escape_general (s : Snip) (pre : List NTEv) (hc : s.onCancelled = true) :
    (snipRun s (pre.map ntToEv ++ [SnipEv.key Key.escape])).2 = [CB.cancelled] ∧
    (snipRun s (pre.map ntToEv ++ [SnipEv.key Key.escape])).1.onCompleted = false ∧
    (snipRun s (pre.map ntToEv ++ [SnipEv.key Key.escape])).1.onCancelled = false ∧
    (snipRun s (pre.map ntToEv ++ [SnipEv.key Key.escape])).1.closed = true := by
  obtain ⟨hnil, _, _, hcanc, _⟩ := snipRun_nt s pre
  rw [snipRun_append, hnil]
  simp [snipRun, snipStep, keyPress, hcanc, hc]

/-- Claim C5: for every capture consisting of a press at `p0`, any number of
moves, and a release, exactly one completion callback fires, reporting the
componentwise minimum of the press position and the final pointer position
as the top-left corner and the componentwise maximum as the bottom-right
corner; in particular swapping the two drag endpoints yields the same
normalized rectangle. -/
theorem c5_selector_completion :
    (∀ (p0 : Point) (ps : List Point),
      (snipRun (snipStart snipInit)
          (SnipEv.press p0 :: (ps.map SnipEv.move ++ [SnipEv.release]))).2
        = [CB.completed
            { x := min p0.x (ps.getLastD p0).x, y := min p0.y (ps.getLastD p0).y }
            { x := max p0.x (ps.getLastD p0).x, y := max p0.y (ps.getLastD p0).y }]) ∧
    (∀ a b : Point,
      (snipRun (snipStart snipInit) [SnipEv.press a, SnipEv.move b, SnipEv.release]).2
        = (snipRun (snipStart snipInit) [SnipEv.press b, SnipEv.move a, SnipEv.release]).2) := by
  have main : ∀ (p0 : Point) (ps : List Point),
      (snipRun (snipStart snipInit)
          (SnipEv.press p0 :: (ps.map SnipEv.move ++ [SnipEv.release]))).2
        = [CB.completed
            { x := min p0.x (ps.getLastD p0).x, y := min p0.y (ps.getLastD p0).y }
            { x := max p0.x (ps.getLastD p0).x, y := max p0.y (ps.getLastD p0).y }] := by
    intro p0 ps
    rw [show SnipEv.press p0 :: (ps.map SnipEv.move ++ [SnipEv.release])
        = [SnipEv.press p0] ++ (ps.map SnipEv.move ++ [SnipEv.release]) from rfl]
    rw [snipRun_append, snipRun_append]
    rw [show snipRun (snipStart snipInit) [SnipEv.press p0]
        = (mousePress (snipStart snipInit) p0, []) from by simp [snipRun, snipStep]]
    rw [snipRun_moves]
    simp [snipRun, snipStep, mouseRelease, mousePress, snipStart, snipInit]
  refine ⟨main, ?_⟩
  intro a b
  have h1 := main a [b]
  have h2 := main b [a]
  simp only [List.map, List.getLastD] at h1 h2
  rw [show [SnipEv.press a, SnipEv.move b, SnipEv.release]
      = SnipEv.press a :: ([SnipEv.move b] ++ [SnipEv.release]) from rfl, h1]
  rw [show [SnipEv.press b, SnipEv.move a, SnipEv.release]
      = SnipEv.press b :: ([SnipEv.move a] ++ [SnipEv.release]) from rfl, h2]
  simp [min_comm, max_comm]

/-- Claim C6: per started capture, before a terminating event no callback
fires; a capture ended by a release fires exactly one completion callback and
a capture ended by Escape fires exactly the cancellation callback (never the
completion one) and leaves the surface torn down with both callback slots
cleared; after an Escape, a subsequent `start` runs a fresh capture which
again fires exactly one completion on release. -/
theorem c6_selector_exclusive_callbacks :
    (∀ pre : List NTEv,
      (snipRun (snipStart snipInit) (pre.map ntToEv)).2 = []) ∧
    (∀ pre : List NTEv, ∃ p1 p2,
      (snipRun (snipStart snipInit) (pre.map ntToEv ++ [SnipEv.release])).2
        = [CB.completed p1 p2]) ∧
    (∀ pre : List NTEv,
      (snipRun (snipStart snipInit) (pre.map ntToEv ++ [SnipEv.key Key.escape])).2
        = [CB.cancelled] ∧
      (snipRun (snipStart snipInit) (pre.map ntToEv ++ [SnipEv.key Key.escape])).1.onCompleted
        = false ∧
      (snipRun (snipStart snipInit) (pre.map ntToEv ++ [SnipEv.key Key.escape])).1.onCancelled
        = false ∧
      (snipRun (snipStart snipInit) (pre.map ntToEv ++ [SnipEv.key Key.escape])).1.closed
        = true) ∧
    (∀ pre pre2 : List NTEv, ∃ p1 p2,
      (snipRun
        (snipStart
          (snipRun (snipStart snipInit) (pre.map ntToEv ++ [SnipEv.key Key.escape])).1)
        (pre2.map ntToEv ++ [SnipEv.release])).2 = [CB.completed p1 p2]) := by
  refine ⟨?_, ?_, ?_, ?_⟩
  · intro pre
    exact (snipRun_nt (snipStart snipInit) pre).1
  · intro pre
    exact snipRun_release_general (snipStart snipInit) pre rfl
  · intro pre
    exact snipRun_escape_general (snipStart snipInit) pre rfl
  · intro pre pre2
    exact snipRun_release_general _ pre2 rfl

/-- Claim C10: a release with no preceding press reports the degenerate
rectangle at the default origin; a press with no movement reports the
degenerate rectangle at the press point; and the manager's completion
handler issues the gateway creation call for a zero-width, zero-height
monitor without any guard rejecting the zero-area selection. -/
theorem c10_degenerate_selection :
    ((snipRun (snipStart snipInit) [SnipEv.release]).2
       = [CB.completed { x := 0, y := 0 } { x := 0, y := 0 }]) ∧
    (∀ p : Point,
      (snipRun (snipStart snipInit) [SnipEv.press p, SnipEv.release]).2
        = [CB.completed p p]) ∧
    (∀ (s : MgrState) (p : Point),
      (complete_region_selection s p p).2
        = [GatewayCall.setMonitor Region.select_region 0 0 p.x p.y]) := by
  refine ⟨?_, ?_, ?_⟩
  · decide
  · intro p
    simp [snipRun, snipStep, mousePress, mouseRelease, snipStart, snipInit]
  · intro s p
    simp [complete_region_selection]

/-- Claim C7 (code bug): `del_monitor` does return `True` on success and
`False` on nonzero exit, and `set_monitor` returns `False` on nonzero exit —
but on success `set_monitor`'s `try` body falls through without a `return`,
so the call yields `None`, not a true success indication as the declared
`-> bool` contract requires. -/
theorem c7_gateway_return_values :
    Xrandr.del_monitor true = PyRet.boolVal true ∧
    Xrandr.del_monitor false = PyRet.boolVal false ∧
    Xrandr.set_monitor false = PyRet.boolVal false ∧
    Xrandr.set_monitor true = PyRet.noneVal ∧
    Xrandr.set_monitor true ≠ PyRet.boolVal true := by
  decide

/-- Claim C8: reconstructing startup state from a single listed monitor
`PYR-left_half` with geometry token `960/1x1080/1+0+0` marks exactly
`left_half` enabled, creates exactly one overlay, positioned at (0, 0) with
size 960×1080, and the parse of the `W/*xH/*+X+Y` token extracts
width 960, height 1080 and offsets (0, 0), ignoring the physical-size
subfields. -/
theorem c8_startup_reconstruction :
    ∃ s : MgrState,
      init_active_monitors
          [(String.toList "PYR-left_half", String.toList "960/1x1080/1+0+0")] initState
        = some s ∧
      s.enabled_displays Region.left_half = true ∧
      (∀ r : Region, r ≠ Region.left_half → s.enabled_displays r = false) ∧
      s.rectangles Region.left_half
        = some { start := { x := 0, y := 0 }, stop := { x := 960, y := 1080 } } ∧
      (∀ r : Region, r ≠ Region.left_half → s.rectangles r = none) ∧
      (∀ r : Region, s.alive r = if r = Region.left_half then 1 else 0) ∧
      ((s.rectangles Region.left_half).map OutlineWidget.coordinates = some (0, 0) ∧
       (s.rectangles Region.left_half).map OutlineWidget.size = some (960, 1080)) ∧
      findGeom (String.toList "960/1x1080/1+0+0") = some (960, 1080, 0, 0) := by
  refine ⟨_, rfl, ?_, ?_, ?_, ?_, ?_, ?_, ?_⟩ <;> decide

end Xrandream
